import Mathlib

/-!
Verification of the IxJS async-iterable core (`asynciterablex.ts`,
`fromdomstream.ts`) by a shallow embedding in Lean.

The embedding models:
* the BYOB (buffer-reuse) read accumulation loop `readInto`,
* the reading-strategy dispatch of `AsyncIterableReadableByteStream`,
* the resource-release wrapper `_consumeReader`,
* the source-normalization dispatch `AsyncIterableX.as` / `AsyncIterableX.from`
  and the adapter classes it constructs, together with `pipe` and `of`.

Buffers are modelled by identity (a numeric id) and byte counts; the
underlying stream in BYOB mode is modelled as the list of its successive
read responses.
-/

/--
One response of the underlying byte stream to a BYOB `reader.read(view)`
call (`fromdomstream.ts`).  When the requested view has length `n`, the
stream writes `min avail n` bytes into it (a BYOB read never writes more
than the view's length), reports `done`, and hands back a view whose
backing `ArrayBuffer` is `buf` (the returned storage may differ in
identity from the one passed in).
-/
structure ByobResponse where
  avail : Nat
  done : Bool
  buf : Nat
  deriving DecidableEq, Repr

/--
The result object of `readInto` / a BYOB read
(`ReadableStreamReadResult<Uint8Array>` in `fromdomstream.ts`): a `done`
flag and a `Uint8Array` view described by its backing buffer identity
`buf`, its byte offset `start` and its byte length `len`.
-/
structure ReadResult where
  done : Bool
  buf : Nat
  start : Nat
  len : Nat
  deriving DecidableEq, Repr

/--
`readInto(reader, buffer, offset, size)` from `fromdomstream.ts`:

* if `offset >= size`, immediately return
  `{ done: false, value: new Uint8Array(buffer, 0, size) }` without
  reading from the stream;
* otherwise perform one read into
  `new Uint8Array(buffer, offset, size - offset)` (the stream writes
  `min r.avail (size - offset)` bytes), and if the new offset is still
  below `size` and the stream is not done, recurse into the remaining
  unfilled portion of the *returned* storage `r.buf`;
* otherwise return `{ done, value: new Uint8Array(value.buffer, 0, offset) }`,
  the accumulated region trimmed to the bytes actually filled.

The reader's pending responses are threaded explicitly; `none` models a
read that never resolves (the stream has no further response).
-/
def readInto : List ByobResponse → Nat → Nat → Nat → Option (ReadResult × List ByobResponse)
  | responses, buffer, offset, size =>
    if size ≤ offset then
      some (⟨false, buffer, 0, size⟩, responses)
    else
      match responses with
      | [] => none
      | r :: rest =>
        if offset + min r.avail (size - offset) < size ∧ r.done = false then
          readInto rest r.buf (offset + min r.avail (size - offset)) size
        else
          some (⟨r.done, r.buf, 0, offset + min r.avail (size - offset)⟩, rest)

/--
Spec-side accumulation loop for a BYOB read cycle, written from the
specification's words: repeatedly take the next stream response,
accumulating `min r.avail (size - offset)` bytes per response, until the
fill offset reaches the target `size` or the stream signals done
(whichever first); the result records the number of bytes actually
filled, whether the stream signalled done, and the unconsumed responses.
-/
def fillLoop (size : Nat) : Nat → List ByobResponse → Option (Nat × Bool × List ByobResponse)
  | offset, [] => if size ≤ offset then some (offset, false, []) else none
  | offset, r :: rest =>
    if size ≤ offset then
      some (offset, false, r :: rest)
    else
      if r.done = true then
        some (offset + min r.avail (size - offset), true, rest)
      else if size ≤ offset + min r.avail (size - offset) then
        some (offset + min r.avail (size - offset), false, rest)
      else
        fillLoop size (offset + min r.avail (size - offset)) rest

/-- Project a `readInto` outcome to (bytes in the returned region, done flag,
remaining stream responses). -/
def readIntoExpose : Option (ReadResult × List ByobResponse) → Option (Nat × Bool × List ByobResponse)
  | none => none
  | some (res, rest) => some (res.len, res.done, rest)

theorem readInto_toSpec (responses : List ByobResponse) :
    ∀ buffer offset size : Nat, offset < size →
      readIntoExpose (readInto responses buffer offset size) = fillLoop size offset responses := by
  induction responses with
  | nil =>
    intro buffer offset size h
    simp [readInto, fillLoop, readIntoExpose, Nat.not_le.mpr h]
  | cons r rest ih =>
    intro buffer offset size h
    have hns : ¬ size ≤ offset := Nat.not_le.mpr h
    rw [readInto, fillLoop]
    simp only [if_neg hns]
    cases hdone : r.done with
    | true =>
      simp [hdone, readIntoExpose]
    | false =>
      by_cases hlt : offset + min r.avail (size - offset) < size
      · simp only [hdone, hlt, and_self, if_true, if_neg (Nat.not_le.mpr hlt), if_false]
        exact ih r.buf (offset + min r.avail (size - offset)) size hlt
      · simp [hdone, hlt, Nat.le_of_not_lt hlt, readIntoExpose]

theorem fillLoop_bounds (responses : List ByobResponse) :
    ∀ offset size n d rest, offset ≤ size →
      fillLoop size offset responses = some (n, d, rest) →
      n ≤ size ∧ (d = true ∨ n = size) := by
  induction responses with
  | nil =>
    intro offset size n d rest hle h
    rw [fillLoop] at h
    split at h
    · rename_i hso
      cases h
      exact ⟨hle, Or.inr (Nat.le_antisymm hle hso)⟩
    · exact absurd h (by simp)
  | cons r rest ih =>
    intro offset size n d rem hle h
    rw [fillLoop] at h
    have hmin : offset + min r.avail (size - offset) ≤ size := by omega
    split at h
    · rename_i hso
      cases h
      exact ⟨hle, Or.inr (Nat.le_antisymm hle hso)⟩
    · split at h
      · cases h
        exact ⟨hmin, Or.inl rfl⟩
      · split at h
        · rename_i hfull
          cases h
          exact ⟨hmin, Or.inr (Nat.le_antisymm hmin hfull)⟩
        · exact ih (offset + min r.avail (size - offset)) size n d rem hmin h

/--
C1: For the buffer-reuse (BYOB) reader adapter, a read cycle started at
offset 0 with target `size` repeatedly reads into the remaining unfilled
portion of the storage handed back by the stream, accumulating bytes until
the fill offset reaches `size` or the stream signals done (`readInto`
agrees with the spec-side accumulation `fillLoop`), and yields exactly one
result whose region is trimmed to the number of bytes actually filled:
the region never exceeds `size` and, when the stream did not signal done,
it is exactly `size` (never a padded region, never several partial ones).
-/
theorem readInto_accumulates_until_filled_or_done (responses : List ByobResponse)
    (buffer size : Nat) :
    readIntoExpose (readInto responses buffer 0 size) = fillLoop size 0 responses ∧
    ∀ res rest, readInto responses buffer 0 size = some (res, rest) →
      res.len ≤ size ∧ (res.done = true ∨ res.len = size) := by
  have hmain : readIntoExpose (readInto responses buffer 0 size) = fillLoop size 0 responses := by
    rcases Nat.eq_zero_or_pos size with hz | hp
    · subst hz
      cases responses <;> simp [readInto, fillLoop, readIntoExpose]
    · exact readInto_toSpec responses buffer 0 size hp
  refine ⟨hmain, ?_⟩
  intro res rest hsome
  have hfill : fillLoop size 0 responses = some (res.len, res.done, rest) := by
    rw [← hmain, hsome, readIntoExpose]
  exact fillLoop_bounds responses 0 size res.len res.done rest (Nat.zero_le _) hfill

theorem readInto_accumulates_until_filled_or_done_witness :
    readInto [⟨3, false, 11⟩, ⟨3, false, 12⟩, ⟨3, false, 13⟩, ⟨3, false, 14⟩] 10 0 10 =
      some (⟨false, 14, 0, 10⟩, []) ∧
    (⟨false, 14, 0, 10⟩ : ReadResult).len ≤ 10 ∧
      ((⟨false, 14, 0, 10⟩ : ReadResult).done = true ∨
        (⟨false, 14, 0, 10⟩ : ReadResult).len = 10) :=
  ⟨by decide,
    (readInto_accumulates_until_filled_or_done
        [⟨3, false, 11⟩, ⟨3, false, 12⟩, ⟨3, false, 13⟩, ⟨3, false, 14⟩] 10 10).2
      ⟨false, 14, 0, 10⟩ [] (by decide)⟩

/--
C7: a BYOB read request whose starting offset is already at or past the
target size is a no-op: `readInto` immediately returns done = false with
the view `new Uint8Array(buffer, 0, size)` — a region of exactly the
target size over the supplied buffer (empty when the target size is 0) —
and leaves the stream's pending responses untouched.
-/
theorem readInto_offset_ge_size_noop (responses : List ByobResponse)
    (buffer offset size : Nat) (h : size ≤ offset) :
    readInto responses buffer offset size = some (⟨false, buffer, 0, size⟩, responses) := by
  rw [readInto.eq_def]
  exact if_pos h

theorem readInto_offset_ge_size_noop_witness :
    (3 ≤ 4) ∧
    readInto [⟨3, false, 1⟩] 5 4 3 = some (⟨false, 5, 0, 3⟩, [⟨3, false, 1⟩]) :=
  ⟨by decide, readInto_offset_ge_size_noop [⟨3, false, 1⟩] 5 4 3 (by decide)⟩

/--
How one full iteration of the inner sequence handed to `_consumeReader`
(`fromdomstream.ts`) ends, as seen from `yield* iterator`:
* `normal vals` — the inner iterator yields `vals` and completes;
* `failed vals e` — after yielding `vals`, a pull rejects with `e`
  (the rejection is thrown at the `yield*` and lands in the `catch`);
* `abandoned vals` — after `vals` items the consumer stops pulling and the
  generator's `return()` runs (only the `finally` executes, no `catch`).
-/
inductive InnerOutcome (ε α : Type)
  | normal (vals : List α)
  | failed (vals : List α) (error : ε)
  | abandoned (vals : List α)
  deriving DecidableEq

/-- Observable actions `_consumeReader` performs on the reader during
cleanup: `reader.cancel(reason)`, attaching the no-op rejection handler to
`reader.closed`, and `reader.releaseLock()`. -/
inductive CleanupAction (ε : Type)
  | cancelWith (reason : Option ε)
  | handleClosed
  | releaseLock
  deriving DecidableEq

/--
The run of the `_consumeReader` wrapper, as the consumer and the reader
observe it: the values passed through, the cleanup actions in order, the
error (if any) with which the wrapper's iteration finally rejects toward
the consumer, and whether the stream is still locked afterwards.
-/
structure ConsumeRun (ε α : Type) where
  yielded : List α
  actions : List (CleanupAction ε)
  thrownToConsumer : Option ε
  lockedAfter : Bool
  deriving DecidableEq

/--
The `finally` block of `_consumeReader` on a path where the `catch` did
not run (`threw === false`): `await reader.cancel()`; if that rejects with
`f`, the rest of the `finally` is skipped and `f` propagates (the lock is
not released); otherwise, if the stream is still locked, attach the
`closed` handler and `releaseLock()` (its own errors swallowed).
`cancelFail` is the behaviour of the reader's `cancel`: `none` if it
resolves, `some f` if it rejects with `f`.
-/
def consumeFinallyNoThrow (vals : List α) (cancelFail : Option ε) (locked : Bool) :
    ConsumeRun ε α :=
  match cancelFail with
  | some f =>
    { yielded := vals
      actions := [CleanupAction.cancelWith none]
      thrownToConsumer := some f
      lockedAfter := locked }
  | none =>
    { yielded := vals
      actions := CleanupAction.cancelWith none ::
        (if locked then [CleanupAction.handleClosed, CleanupAction.releaseLock] else [])
      thrownToConsumer := none
      lockedAfter := false }

/--
`_consumeReader(stream, reader, iterator)` from `fromdomstream.ts`, with a
non-null reader.  On an inner failure `e`, the `catch` sets `threw`,
awaits `reader.cancel(e)` and does not rethrow `e`; the `finally` then
runs in full (skipping the idle cancel), releasing the lock if the stream
is still locked, and any rejection of the `cancel(e)` call propagates
after the `finally`.  On normal completion and on consumer abandonment
(`return()`), only the `finally` runs: an idle `cancel()`, then — if the
cancel resolved — the `closed` handler and `releaseLock()`.
-/
def consumeReader (inner : InnerOutcome ε α) (cancelFail : Option ε) (locked : Bool) :
    ConsumeRun ε α :=
  match inner with
  | InnerOutcome.failed vals e =>
    { yielded := vals
      actions := CleanupAction.cancelWith (some e) ::
        (if locked then [CleanupAction.handleClosed, CleanupAction.releaseLock] else [])
      thrownToConsumer := cancelFail
      lockedAfter := false }
  | InnerOutcome.normal vals => consumeFinallyNoThrow vals cancelFail locked
  | InnerOutcome.abandoned vals => consumeFinallyNoThrow vals cancelFail locked

/-- Whether a cleanup action is an invocation of the reader's `cancel`. -/
def isCancelAction : CleanupAction ε → Bool
  | CleanupAction.cancelWith _ => true
  | _ => false

/-- Number of `cancel` invocations in a cleanup action list. -/
def countCancels (acts : List (CleanupAction ε)) : Nat :=
  acts.countP (fun a => isCancelAction a)

/--
C2 counterexample: the claim fails as universally stated.  For a stream
whose reader's idle `cancel()` rejects (here with `5`), on the normal
exhaustion path with the stream still locked, the rejection aborts the
`finally` block before the `releaseLock()` step: the cancel action did run
exactly once, but the stream is left locked, contradicting "the reader's
lock is released, leaving the stream unlocked".
-/
theorem consumeReader_release_cex :
    countCancels
        (consumeReader (InnerOutcome.normal ([] : List Nat)) (some (5 : Nat)) true).actions = 1 ∧
    (consumeReader (InnerOutcome.normal ([] : List Nat)) (some (5 : Nat)) true).lockedAfter
      = true := by
  decide

/--
C2 (amended): for every termination path of the wrapped iteration —
normal exhaustion, early abandonment by the consumer, or a failure
propagating from the inner sequence — `_consumeReader` invokes the
reader's `cancel` exactly once; and provided that `cancel` invocation
itself resolves, if the stream is still locked the reader's lock is
subsequently released, leaving the stream unlocked.
-/
theorem consumeReader_release_once {ε α : Type} (inner : InnerOutcome ε α)
    (cancelFail : Option ε) (locked : Bool) :
    countCancels (consumeReader inner cancelFail locked).actions = 1 ∧
    (cancelFail = none → (consumeReader inner cancelFail locked).lockedAfter = false) := by
  cases inner <;> cases cancelFail <;> cases locked <;>
    simp [consumeReader, consumeFinallyNoThrow, countCancels, isCancelAction]

theorem consumeReader_release_once_witness :
    countCancels
        (consumeReader (InnerOutcome.normal ([0] : List Nat)) (none : Option Nat) true).actions
      = 1 ∧
    (consumeReader (InnerOutcome.normal ([0] : List Nat)) (none : Option Nat) true).lockedAfter
      = false :=
  ⟨(consumeReader_release_once (InnerOutcome.normal [0]) none true).1,
    (consumeReader_release_once (InnerOutcome.normal [0]) none true).2 rfl⟩

/--
C3 counterexample: when the inner sequence fails with `E = 7` and the
reader's `cancel(E)` resolves, the consumer does NOT observe `E` — the
`catch` block of `_consumeReader` never rethrows, so the wrapper
completes normally (first conjunct); and when the cancellation itself
rejects (here with `9`), that cancellation failure is not swallowed but
propagates to the consumer (second conjunct).  Both parts contradict the
claim.
-/
theorem consumeReader_failure_swallowed_cex :
    (consumeReader (InnerOutcome.failed ([] : List Nat) 7) (none : Option Nat)
        true).thrownToConsumer ≠ some 7 ∧
    (consumeReader (InnerOutcome.failed ([] : List Nat) 7) (some 9)
        true).thrownToConsumer = some 9 := by
  decide

/--
C3 (amended): when the inner sequence fails with error `e`, the reader is
cancelled with `e` as reason — the first and only cancel action — and the
unlock step still runs (its own errors swallowed), leaving the stream
unlocked; but `e` itself is never re-raised: the consumer observes normal
completion if the cancellation resolves, and observes the cancellation's
own failure if it rejects.
-/
theorem consumeReader_failure_path {ε α : Type} (vals : List α) (e : ε)
    (cancelFail : Option ε) (locked : Bool) :
    (consumeReader (InnerOutcome.failed vals e) cancelFail locked).actions.head? =
      some (CleanupAction.cancelWith (some e)) ∧
    (consumeReader (InnerOutcome.failed vals e) cancelFail locked).thrownToConsumer =
      cancelFail ∧
    (consumeReader (InnerOutcome.failed vals e) cancelFail locked).lockedAfter = false ∧
    countCancels (consumeReader (InnerOutcome.failed vals e) cancelFail locked).actions = 1 := by
  cases locked <;> simp [consumeReader, countCancels, isCancelAction]

/-- JavaScript values carried by the modelled sequences: a string, a
number, or an opaque object identified by `id`. -/
inductive JSVal
  | str (s : String)
  | num (n : Nat)
  | obj (id : Nat)
  deriving DecidableEq, Repr

/-- A selector function `(value, index) => result` as passed to
`AsyncIterableX.from` (`asynciterablex.ts`); the transform is modelled as
pure, applied per item with its 0-based index. -/
def Selector : Type := JSVal → Nat → JSVal

/-- `identityAsync` from `internal/identity`, the default selector:
yields the value unchanged, ignoring the index. -/
def identitySel : Selector := fun v _ => v

/--
The adapter classes of `asynciterablex.ts`, each holding its already
traversed source contents and its selector:
`OfAsyncIterable`, `FromAsyncIterable`, `FromPromiseIterable` (the
resolved value; the rejection path is not needed by any claim),
`FromObservableAsyncIterable` (the pushed events, completion assumed) and
`FromArrayIterable`.
-/
inductive Adapter
  | ofIterable (args : List JSVal)
  | fromAsyncIterable (source : List JSVal) (selector : Selector)
  | fromPromise (source : JSVal) (selector : Selector)
  | fromObservable (events : List JSVal) (selector : Selector)
  | fromArray (source : List JSVal) (selector : Selector)

/-- `selectIdx sel i xs` mirrors the traversal loops of the adapters:
`yield await selector(item, i++)` with the counter starting at `i`. -/
def selectIdx (sel : Selector) : Nat → List JSVal → List JSVal
  | _, [] => []
  | i, v :: vs => sel v i :: selectIdx sel (i + 1) vs

/-- The items a whole iteration of an adapter yields, in order
(the denotation of its `[Symbol.asyncIterator]` generator). -/
def Adapter.items : Adapter → List JSVal
  | Adapter.ofIterable args => args
  | Adapter.fromAsyncIterable src sel => selectIdx sel 0 src
  | Adapter.fromPromise v sel => [sel v 0]
  | Adapter.fromObservable evs sel => selectIdx sel 0 evs
  | Adapter.fromArray src sel => selectIdx sel 0 src

/--
The universe of input values the normalizers inspect, tagged by the first
runtime shape test of `asynciterablex.ts` that recognizes them
(first match wins, so each value carries the tag of the earliest test it
satisfies):
* `wrapped` — an existing `AsyncIterableX` instance (which also has
  `[Symbol.asyncIterator]`, hence is async-iterable-shaped);
* `strVal` — a string (iterable character by character, and array-like);
* `syncIterable` / `asyncIterable` — values with `[Symbol.iterator]` /
  `[Symbol.asyncIterator]` and the listed traversal contents;
* `thenable` — has a callable `then`, resolving to `value`;
* `observable` — has a callable `subscribe`, pushing `events`;
* `arrayLike` — numeric `length` and indexed access, not iterable;
* `iteratorObj` — a bare iterator (callable `next`, no `Symbol.iterator`),
  an object with identity `id` whose traversal yields `items`;
* `plain` — a value matching none of the recognized shapes.
-/
inductive Input
  | wrapped (inner : Adapter)
  | strVal (s : String)
  | syncIterable (items : List JSVal)
  | asyncIterable (items : List JSVal)
  | thenable (value : JSVal)
  | observable (events : List JSVal)
  | arrayLike (items : List JSVal)
  | iteratorObj (id : Nat) (items : List JSVal)
  | plain (value : JSVal)

/-- `source instanceof AsyncIterableX`. -/
def isWrapped : Input → Bool
  | Input.wrapped _ => true
  | _ => false

/-- Modelled from the spec: `isIterable` of the missing
`internal/isiterable.ts` — the value has a synchronous-iterable shape
(`[Symbol.iterator]`); strings are iterable in JavaScript. -/
def isIterable : Input → Bool
  | Input.strVal _ => true
  | Input.syncIterable _ => true
  | _ => false

/-- Modelled from the spec: `isAsyncIterable` of the missing
`internal/isiterable.ts` — the value has an asynchronous-iterable shape
(`[Symbol.asyncIterator]`); every `AsyncIterableX` instance has one. -/
def isAsyncIterable : Input → Bool
  | Input.asyncIterable _ => true
  | Input.wrapped _ => true
  | _ => false

/-- `isPromise` (`asynciterablex.ts`): the value has a callable `then`. -/
def isPromise : Input → Bool
  | Input.thenable _ => true
  | _ => false

/-- `isObservable` (`asynciterablex.ts`): the value has a callable
`subscribe`. -/
def isObservable : Input → Bool
  | Input.observable _ => true
  | _ => false

/-- Modelled from the spec: `isArrayLike` of the missing
`internal/isiterable.ts` — numeric `length` with indexed access; strings
qualify, though the earlier tests capture them first. -/
def isArrayLike : Input → Bool
  | Input.arrayLike _ => true
  | Input.strVal _ => true
  | _ => false

/-- Modelled from the spec: `isIterator` of the missing
`internal/isiterable.ts` — a bare iterator object with a callable
`next`. -/
def isIterator : Input → Bool
  | Input.iteratorObj _ _ => true
  | _ => false

/-- The characters JavaScript's string iterator yields, each as a
one-character string, in order. -/
def strChars (s : String) : List JSVal :=
  s.data.map (fun c => JSVal.str (String.singleton c))

/-- The contents an iterable-shaped input's traversal visits, in order
(`for await (let item of source)`). -/
def iterDenote : Input → List JSVal
  | Input.wrapped a => a.items
  | Input.strVal s => strChars s
  | Input.syncIterable xs => xs
  | Input.asyncIterable xs => xs
  | Input.iteratorObj _ xs => xs
  | _ => []

/-- The resolved value of a thenable input. -/
def thenableValue : Input → JSVal
  | Input.thenable v => v
  | _ => JSVal.num 0

/-- The events pushed by an observable input. -/
def observableEvents : Input → List JSVal
  | Input.observable evs => evs
  | _ => []

/-- The indexed contents of an array-like input (strings are array-like
with their characters at each index). -/
def arrayItems : Input → List JSVal
  | Input.arrayLike xs => xs
  | Input.strVal s => strChars s
  | _ => []

/--
`AsyncIterableX.as` (`asynciterablex.ts`), the lenient normalizer.  Its
runtime tests run in source order — `instanceof AsyncIterableX`,
`typeof source === 'string'`, `isIterable || isAsyncIterable`,
`isPromise`, `isObservable`, `isArrayLike`, then the single-element
fallback `new OfAsyncIterable([source])`; on the tagged universe each
input lands in the branch of the first test it satisfies.  All adapters
are built with the identity selector.
-/
def AsyncIterableX.as : Input → Adapter
  | Input.wrapped a => a
  | Input.strVal s => Adapter.ofIterable [JSVal.str s]
  | Input.syncIterable xs => Adapter.fromAsyncIterable xs identitySel
  | Input.asyncIterable xs => Adapter.fromAsyncIterable xs identitySel
  | Input.thenable v => Adapter.fromPromise v identitySel
  | Input.observable evs => Adapter.fromObservable evs identitySel
  | Input.arrayLike xs => Adapter.fromArray xs identitySel
  | Input.iteratorObj i _ => Adapter.ofIterable [JSVal.obj i]
  | Input.plain v => Adapter.ofIterable [v]

/-- The error thrown by the strict constructor:
`new TypeError('Input type not supported')`. -/
inductive FromError
  | typeInputUnsupported
  deriving DecidableEq, Repr

/--
`AsyncIterableX.from(source, selector)` (`asynciterablex.ts`), the strict
constructor: dispatch on `isIterable || isAsyncIterable`, `isPromise`,
`isObservable`, `isArrayLike`, `isIterator` (a bare iterator is wrapped
in an ad-hoc async iterable around it), in that order; if nothing
matches, throw `TypeError('Input type not supported')`.
-/
def AsyncIterableX.fromInput (source : Input) (fn : Selector) : Except FromError Adapter :=
  if isIterable source || isAsyncIterable source then
    Except.ok (Adapter.fromAsyncIterable (iterDenote source) fn)
  else if isPromise source then
    Except.ok (Adapter.fromPromise (thenableValue source) fn)
  else if isObservable source then
    Except.ok (Adapter.fromObservable (observableEvents source) fn)
  else if isArrayLike source then
    Except.ok (Adapter.fromArray (arrayItems source) fn)
  else if isIterator source then
    Except.ok (Adapter.fromAsyncIterable (iterDenote source) fn)
  else
    Except.error FromError.typeInputUnsupported

/--
`AsyncIterableX.prototype.pipe` (`asynciterablex.ts`, the base variant):
starting from `this`, apply each operator in order, re-normalizing every
intermediate result with `AsyncIterableX.as`; with no operators the loop
body never runs and `this` is returned unchanged.
-/
def AsyncIterableX.pipe (self : Adapter) (operations : List (Adapter → Input)) : Adapter :=
  operations.foldl (fun acc op => AsyncIterableX.as (op acc)) self

/--
State of a JavaScript (async) generator driving an adapter's iteration,
such as `OfAsyncIterable`'s `async *[Symbol.asyncIterator]()` looping over
`this._args`: either still running with the listed items left to yield,
or completed.  Once the body returns, the generator is completed for
good — a completed generator answers every further `next()` with
`{ done: true }` and never throws.
-/
inductive GenState (α : Type)
  | running (rest : List α)
  | completed
  deriving DecidableEq, Repr

/-- One `next()` request on a generator-backed iterator: the yielded value
(`none` = `{ done: true }`) and the generator's state afterwards. -/
def genNext : GenState α → Option α × GenState α
  | GenState.running [] => (none, GenState.completed)
  | GenState.running (x :: xs) => (some x, GenState.running xs)
  | GenState.completed => (none, GenState.completed)

/-- The generator state reached after `n` further `next()` requests. -/
def genSkip : Nat → GenState α → GenState α
  | 0, s => s
  | n + 1, s => genSkip n (genNext s).snd

/-- The iterator `OfAsyncIterable` (`asynciterablex.ts`) hands out: a
generator about to yield `args` (the values captured by `of(...args)`)
in order. -/
def OfAsyncIterable.asyncIterator (args : List α) : GenState α :=
  GenState.running args

theorem genSkip_completed (n : Nat) : genSkip n (GenState.completed : GenState α) = GenState.completed := by
  induction n with
  | zero => rfl
  | succ n ih => simpa [genSkip, genNext] using ih

theorem genNext_none_state {s : GenState α} (h : (genNext s).fst = none) :
    (genNext s).snd = GenState.completed := by
  cases s with
  | running rest => cases rest with
    | nil => rfl
    | cons x xs => simp [genNext] at h
  | completed => rfl

/--
A description of a `ReadableStream` as the byte-stream adapters see it:
whether `getReader({ mode: 'byob' })` succeeds (rather than throwing
synchronously), the chunks successive default-mode reads produce, and the
BYOB responses of the stream.
-/
structure ReadableStreamModel where
  byobSupported : Bool
  defaultChunks : List (List Nat)
  byobResponses : List ByobResponse
  deriving DecidableEq, Repr

/--
The `_consumeReader`-wrapped iterator a stream adapter returns: either
the default reading strategy over `defaultReaderToAsyncIterator` (which
yields the stream's freshly produced chunks verbatim), or the
buffer-reuse strategy over `byobReaderToAsyncIterator`, with its priming
`next()` already performed (`primed`).
-/
inductive StreamIterator
  | defaultMode (chunks : List (List Nat))
  | byobMode (responses : List ByobResponse) (primed : Bool)
  deriving DecidableEq, Repr

/-- `AsyncIterableReadableStream.prototype[Symbol.asyncIterator]`
(`fromdomstream.ts`): acquire a default reader and wrap
`defaultReaderToAsyncIterator` in `_consumeReader`. -/
def AsyncIterableReadableStream.asyncIterator (stream : ReadableStreamModel) : StreamIterator :=
  StreamIterator.defaultMode stream.defaultChunks

/-- `AsyncIterableReadableByteStream.prototype[Symbol.asyncIterator]`
(`fromdomstream.ts`): try `getReader({ mode: 'byob' })`; if it throws,
fall back to the superclass (default-mode) iterator; otherwise wrap
`byobReaderToAsyncIterator` in `_consumeReader` and pump it once so it is
primed to accept a buffer or byte count. -/
def AsyncIterableReadableByteStream.asyncIterator (stream : ReadableStreamModel) : StreamIterator :=
  if stream.byobSupported then
    StreamIterator.byobMode stream.byobResponses true
  else
    AsyncIterableReadableStream.asyncIterator stream

theorem selectIdx_getElem (sel : Selector) (xs : List JSVal) :
    ∀ k i : Nat, (selectIdx sel k xs)[i]? = (xs[i]?).map (fun v => sel v (k + i)) := by
  induction xs with
  | nil => intro k i; simp [selectIdx]
  | cons x xs ih =>
    intro k i
    cases i with
    | zero => simp [selectIdx]
    | succ i =>
      simp only [selectIdx, List.getElem?_cons_succ]
      rw [ih (k + 1) i]
      have hk : k + 1 + i = k + (i + 1) := by omega
      rw [hk]

/--
C4 counterexample: a bare iterator object (callable `next`, not iterable,
not a thenable, observable or array-like, and not an `AsyncIterableX`
instance) matches none of normalization rules 3–6, yet the strict
constructor does not fail on it: `from` has an additional `isIterator`
branch that wraps the iterator, so it returns a sequence instead of
throwing `TypeError('Input type not supported')`.
-/
theorem fromInput_iterator_cex :
    (isWrapped (Input.iteratorObj 0 [JSVal.num 1]) = false ∧
      isIterable (Input.iteratorObj 0 [JSVal.num 1]) = false ∧
      isAsyncIterable (Input.iteratorObj 0 [JSVal.num 1]) = false ∧
      isPromise (Input.iteratorObj 0 [JSVal.num 1]) = false ∧
      isObservable (Input.iteratorObj 0 [JSVal.num 1]) = false ∧
      isArrayLike (Input.iteratorObj 0 [JSVal.num 1]) = false) ∧
    AsyncIterableX.fromInput (Input.iteratorObj 0 [JSVal.num 1]) identitySel ≠
      Except.error FromError.typeInputUnsupported := by
  refine ⟨⟨rfl, rfl, rfl, rfl, rfl, rfl⟩, ?_⟩
  simp [AsyncIterableX.fromInput, isIterable, isAsyncIterable, isPromise, isObservable,
    isArrayLike, isIterator]

/--
C4 (amended): for every input matching none of the shapes of rules 3–6
(synchronous iterable, asynchronous iterable, thenable, observable,
array-like) AND not a bare iterator either, the strict constructor
`from` fails with `TypeError('Input type not supported')` instead of
returning a sequence.  (Since every `AsyncIterableX` instance is
async-iterable-shaped, "not already wrapped" is subsumed by the
`isAsyncIterable` hypothesis.)
-/
theorem fromInput_unsupported (source : Input) (fn : Selector)
    (h1 : isIterable source = false) (h2 : isAsyncIterable source = false)
    (h3 : isPromise source = false) (h4 : isObservable source = false)
    (h5 : isArrayLike source = false) (h6 : isIterator source = false) :
    AsyncIterableX.fromInput source fn = Except.error FromError.typeInputUnsupported := by
  simp [AsyncIterableX.fromInput, h1, h2, h3, h4, h5, h6]

theorem fromInput_unsupported_witness :
    isIterable (Input.plain (JSVal.num 0)) = false ∧
    isAsyncIterable (Input.plain (JSVal.num 0)) = false ∧
    isPromise (Input.plain (JSVal.num 0)) = false ∧
    isObservable (Input.plain (JSVal.num 0)) = false ∧
    isArrayLike (Input.plain (JSVal.num 0)) = false ∧
    isIterator (Input.plain (JSVal.num 0)) = false ∧
    AsyncIterableX.fromInput (Input.plain (JSVal.num 0)) identitySel =
      Except.error FromError.typeInputUnsupported :=
  ⟨rfl, rfl, rfl, rfl, rfl, rfl,
    fromInput_unsupported (Input.plain (JSVal.num 0)) identitySel rfl rfl rfl rfl rfl rfl⟩

/--
C5: for every string `s`, the lenient normalizer `as` wraps `s` in
`OfAsyncIterable([s])`: the resulting sequence yields the whole string
`s` exactly once as a single item and is then done — not character by
character — even though strings are iterable (the `typeof 'string'` test
runs before the iterable test).
-/
theorem as_string_single_item (s : String) :
    AsyncIterableX.as (Input.strVal s) = Adapter.ofIterable [JSVal.str s] ∧
    (AsyncIterableX.as (Input.strVal s)).items = [JSVal.str s] ∧
    isIterable (Input.strVal s) = true :=
  ⟨rfl, rfl, rfl⟩

/--
C6: if buffer-reuse mode is requested but `getReader({ mode: 'byob' })`
throws synchronously, the byte-stream adapter falls back for its entire
lifetime to the default reading strategy: the iterator it returns is
exactly the iterator the default-mode adapter produces for the same
stream.
-/
theorem byteStream_fallback (stream : ReadableStreamModel)
    (h : stream.byobSupported = false) :
    AsyncIterableReadableByteStream.asyncIterator stream =
      AsyncIterableReadableStream.asyncIterator stream := by
  simp [AsyncIterableReadableByteStream.asyncIterator, h]

theorem byteStream_fallback_witness :
    (ReadableStreamModel.mk false [[1, 2, 3]] []).byobSupported = false ∧
    AsyncIterableReadableByteStream.asyncIterator (ReadableStreamModel.mk false [[1, 2, 3]] []) =
      AsyncIterableReadableStream.asyncIterator (ReadableStreamModel.mk false [[1, 2, 3]] []) :=
  ⟨rfl, byteStream_fallback (ReadableStreamModel.mk false [[1, 2, 3]] []) rfl⟩

/--
C8: once a generator-backed sequence instance (such as the iterator of
`OfAsyncIterable`, the class behind `of`) has answered a `next()` request
with the terminal done state, every subsequent `next()` on that same
instance also reports done: the generator moves to the completed state,
from which it never yields another value and never raises.
-/
theorem ofAsyncIterable_done_sticky {α : Type} (args : List α) (k n : Nat)
    (h : (genNext (genSkip k (OfAsyncIterable.asyncIterator args))).fst = none) :
    (genNext (genSkip n (genSkip k (OfAsyncIterable.asyncIterator args)))).fst = none := by
  cases n with
  | zero => exact h
  | succ m =>
    show (genNext (genSkip m (genNext (genSkip k (OfAsyncIterable.asyncIterator args))).snd)).fst
      = none
    rw [genNext_none_state h, genSkip_completed]
    rfl

theorem ofAsyncIterable_done_sticky_witness :
    (genNext (genSkip 2 (OfAsyncIterable.asyncIterator ([1, 2] : List Nat)))).fst = none ∧
    (genNext (genSkip 3 (genSkip 2 (OfAsyncIterable.asyncIterator ([1, 2] : List Nat))))).fst
      = none :=
  ⟨by decide, ofAsyncIterable_done_sticky [1, 2] 2 3 (by decide)⟩

/--
C9: calling `pipe` with an empty list of operations is an identity
passthrough: the loop body never runs and the very sequence `pipe` was
called on is returned — the same adapter, hence yielding the same items
in the same order.
-/
theorem pipe_empty_passthrough (a : Adapter) :
    AsyncIterableX.pipe a [] = a ∧ (AsyncIterableX.pipe a []).items = a.items :=
  ⟨rfl, rfl⟩

/--
C10: the strict constructor `from` — unlike the normalizer `as` — treats
a string as an iterable: `from(s, fn)` wraps the string's character
traversal in `FromAsyncIterable`, and the resulting sequence yields the
characters of `s` one at a time in order, each passed to the selector
with its 0-based index (rather than yielding the whole string once).
-/
theorem fromInput_string_chars (s : String) (fn : Selector) :
    AsyncIterableX.fromInput (Input.strVal s) fn =
      Except.ok (Adapter.fromAsyncIterable (strChars s) fn) ∧
    ∀ i : Nat,
      (Adapter.fromAsyncIterable (strChars s) fn).items[i]? =
        ((strChars s)[i]?).map (fun v => fn v i) := by
  refine ⟨rfl, ?_⟩
  intro i
  have h := selectIdx_getElem fn (strChars s) 0 i
  simpa [Adapter.items] using h
